import Mathlib

/-!
Verification development for the yanu repository (NSP patcher).

The Rust sources embedded here:
  - src/hac/ticket.rs   : title-key extraction from a fixed-layout ticket file
  - src/hac/patch.rs    : the apply-update-patch pipeline
  - src/hac/backend.rs  : backend resolution, build cache, build parallelism
  - crates/hac/src/utils/pack.rs : the repackage-from-filesystem entry point

Files are modelled as lists of bytes, the file system touched by the
pipeline as explicit fields of an input/result record, and each external
child process as a boolean exit-status input.
-/

/-! ## Ticket model (src/hac/ticket.rs) -/

/-- Byte offset of the title id field in a ticket (TicketData::TitleId). -/
def ticketTitleIdOff : Nat := 0x2a0

/-- Byte offset of the key field in a ticket (TicketData::TitleKey). -/
def ticketTitleKeyOff : Nat := 0x180

/-- Errors of the ticket reader: every failure of File::open, seek or
read_exact surfaces as an io error. -/
inductive TicketError
  | ioError
deriving DecidableEq

/-- A derived title key: 16-byte title id and 16-byte key
(struct TitleKey in ticket.rs). -/
structure TitleKey where
  title_id : List Nat
  key : List Nat
deriving DecidableEq

/-- Semantics of Read::read_exact at a given offset: succeeds returning
exactly len bytes iff the file holds at least off + len bytes, otherwise
fails with an io error (UnexpectedEof). -/
def read_exact (file : List Nat) (off len : Nat) : Except TicketError (List Nat) :=
  if off + len ≤ file.length then .ok ((file.drop off).take len)
  else .error .ioError

/-- get_title_key of ticket.rs: read 16 bytes at 0x2a0 into title_id, then
16 bytes at 0x180 into key. -/
def get_title_key (file : List Nat) : Except TicketError TitleKey := do
  let tid ← read_exact file ticketTitleIdOff 16
  let k ← read_exact file ticketTitleKeyOff 16
  pure { title_id := tid, key := k }

/-- One lowercase hexadecimal digit, as produced by the hex crate. -/
def hexDigit (n : Nat) : Char :=
  if n < 10 then Char.ofNat (48 + n) else Char.ofNat (87 + n)

/-- Lowercase hexadecimal of one byte, high nibble first. -/
def hexByte (b : Nat) : List Char :=
  [hexDigit (b / 16 % 16), hexDigit (b % 16)]

/-- hex::encode: lowercase hexadecimal of a byte string. -/
def hexEncode (bs : List Nat) : String :=
  ⟨bs.foldr (fun b acc => hexByte b ++ acc) []⟩

/-- Display for TitleKey: hex(title_id), then a literal equals sign, then
hex(key) (impl fmt::Display for TitleKey in ticket.rs). -/
def TitleKey.display (tk : TitleKey) : String :=
  hexEncode tk.title_id ++ "=" ++ hexEncode tk.key

/-! ## Content entries and the candidate scan (src/hac/patch.rs)

A directory walked by WalkDir is modelled as a list of entries in walk
order.  Each entry carries its path, its file size (metadata len), its
extension and the outcome of Nca::new on it: none when classification
failed (the code logs a warning and skips the entry), or the content type
together with the optional title id. -/

/-- NcaType of rom.rs as used by patch.rs (Program, Control and the
remaining variants that patch.rs ignores). -/
inductive NcaType
  | Program
  | Control
  | Meta
  | Other
deriving DecidableEq

/-- A classified NCA as produced by Nca::new: its path, content type and
optional title id. -/
structure Nca where
  path : String
  content_type : NcaType
  title_id : Option String
deriving DecidableEq

/-- One directory entry seen by the walk: path, file size, extension and
the result of Nca::new (none when classification fails). -/
structure Entry where
  path : String
  size : Nat
  ext : Option String
  parse : Option (NcaType × Option String)
deriving DecidableEq

/-- The Nca built from an entry when Nca::new succeeds on it. -/
def Entry.toNca (e : Entry) : Option Nca :=
  e.parse.map (fun pr => { path := e.path, content_type := pr.1, title_id := pr.2 })

/-- Whether the walk considers the entry at all: extension is nca. -/
def Entry.isNcaExt (e : Entry) : Bool :=
  e.ext == some "nca"

/-- Whether the entry classifies successfully as the given content type
(patch.rs keeps only nca-extension entries that Nca::new accepts). -/
def isKind (k : NcaType) (e : Entry) : Bool :=
  e.isNcaExt && (match e.parse with
    | some pr => pr.1 == k
    | none => false)

/-- Stable insertion (descending by size) used to model
WalkDir::sort_by_key with cmp::Reverse(len): Rust sorts are stable, and a
stable sort by one key is unique, so insertion sort placing each element
before the first no-larger one is the same function on lists. -/
def insertDesc (e : Entry) : List Entry → List Entry
  | [] => [e]
  | x :: xs => if e.size < x.size then x :: insertDesc e xs else e :: x :: xs

/-- The walk order produced by sort_by_key(cmp::Reverse(len)): stable,
descending by size. -/
def sortDesc : List Entry → List Entry
  | [] => []
  | e :: es => insertDesc e (sortDesc es)

/-- First entry of the walk, in the size-sorted order, that classifies as
the given kind; patch.rs takes this entry and its parsed Nca. -/
def scan_for (k : NcaType) (es : List Entry) : Option Nca :=
  ((sortDesc es).find? (isKind k)).bind Entry.toNca

/-- Reference selector in original walk order: the first entry matching p
whose size no later match exceeds (ties resolve to the earlier entry). -/
def bestOf (p : Entry → Bool) : List Entry → Option Entry
  | [] => none
  | e :: es =>
    match bestOf p es with
    | none => if p e then some e else none
    | some b => if p e then (if e.size < b.size then some b else some e) else some b

/-- Descending-by-size order on entry lists. -/
def SortedDesc (l : List Entry) : Prop :=
  l.Pairwise (fun a b => b.size ≤ a.size)

/-! ## Title-id processing and the patch pipeline (src/hac/patch.rs) -/

/-- TITLEID_SZ of patch.rs. -/
def TITLEID_SZ : Nat := 16

/-- Rust String::truncate(n): keep the first n characters (title ids are
ASCII, so bytes and characters coincide). -/
def truncate (s : String) (n : Nat) : String := ⟨s.data.take n⟩

/-- Rust str::to_lowercase restricted to ASCII identifiers: lowercase every
character. -/
def to_lowercase (s : String) : String := ⟨s.data.map Char.toLower⟩

/-- The title-id processing of patch_nsp_with_update: to_lowercase, then
truncate to TITLEID_SZ. -/
def patch_title_id (s : String) : String := truncate (to_lowercase s) TITLEID_SZ

/-- Modelled from the spec: Nsp::get_title_key (rom.rs is not under src/)
serializes a successfully derived key as hex(title_id)=hex(key); with no
derived key the persisted line is empty. -/
def keyLine : Option TitleKey → String
  | some tk => tk.display
  | none => ""

/-- fs::remove_file on the key-store file: afterwards the file is gone
(patch.rs ignores every removal error except PermissionDenied, which the
pipeline below turns into an abort before this point). -/
def remove_file (_f : Option String) : Option String := none

/-- fs::write: create or truncate, leaving exactly the given content. -/
def fs_write (_f : Option String) (content : String) : Option String :=
  some content

/-- The key-store handling of patch.rs lines 34-40 and 59-63: remove the
file, then write base key line, newline, update key line. -/
def store_title_keys (prior : Option String) (baseLine updLine : String) :
    Option String :=
  fs_write (remove_file prior) (baseLine ++ "\n" ++ updLine)

/-- Modelled from the spec: utils::move_file (not under src/) moves rather
than copies: the source disappears from its directory listing and the
destination appears in the target directory listing. -/
def move_file (src dest : String) (srcFs destFs : List String) :
    List String × List String :=
  (srcFs.erase src, dest :: destFs)

/-- The fatal exits of patch_nsp_with_update, in source order. -/
inductive PatchError
  | titleKeysPermissionDenied
  | extractDataFailed
  | baseProgramNotFound
  | updateProgramNotFound
  | updateControlNotFound
  | missingTitleId
  | packNcaFailed
  | patchedNcaNotFound
  | classifyFailed
  | metaNcaFailed
  | nspPackFailed
deriving DecidableEq

/-- The non-fatal events patch_nsp_with_update only logs as warnings. -/
inductive PatchWarn
  | baseKeyDerive
  | updateKeyDerive
  | extractStatus
deriving DecidableEq

/-- The environment one patch run observes: the prior key-store content,
the outcome of each fallible filesystem or child-process step, the
derivation outcomes, and the directory listings the walks see. -/
structure PatchInput where
  priorTitleKeys : Option String
  titleKeysPermDenied : Bool
  extractBaseOk : Bool
  extractUpdateOk : Bool
  baseKey : Option TitleKey
  updateKey : Option TitleKey
  baseEntries : List Entry
  updateEntries : List Entry
  extractStatusOk : Bool
  packStatusOk : Bool
  packedEntries : List Entry
  metaStatusOk : Bool
  nspStatusOk : Bool
deriving DecidableEq

/-- Observable outcome of a successful patch run: final key-store content,
the title id embedded in each packer command line, the leftover cache-dir
listing, the files placed in outdir, and the logged warnings. -/
structure PatchResult where
  titleKeys : Option String
  cmdTitleIds : List String
  cacheFiles : List String
  outFiles : List String
  warnings : List PatchWarn
deriving DecidableEq

/-- patch_nsp_with_update of patch.rs over the modelled input.  Steps in
source order: remove title.keys (only PermissionDenied aborts), extract
both archives, derive title keys (failures only warn), write title.keys,
scan base extraction for the Program NCA, scan update extraction for
Program and Control NCAs, run the romfs/exefs extraction child process
(non-zero exit only warns), compute the title id (lowercase then truncate),
pack the program NCA (non-zero exit aborts), pick the first nca entry of
the nca dir (classification failure aborts), generate the Meta NCA
(non-zero exit aborts), pack the NSP into the cache dir (non-zero exit
aborts), and move it to outdir as title_id[yanu-patched].nsp. -/
def patch_nsp_with_update (inp : PatchInput) : Except PatchError PatchResult :=
  if inp.titleKeysPermDenied then .error .titleKeysPermissionDenied
  else if !inp.extractBaseOk then .error .extractDataFailed
  else if !inp.extractUpdateOk then .error .extractDataFailed
  else
    let keyWarns : List PatchWarn :=
      (if inp.baseKey.isNone then [.baseKeyDerive] else []) ++
        (if inp.updateKey.isNone then [.updateKeyDerive] else [])
    let titleKeys :=
      store_title_keys inp.priorTitleKeys (keyLine inp.baseKey) (keyLine inp.updateKey)
    match scan_for .Program inp.baseEntries with
    | none => .error .baseProgramNotFound
    | some base_nca =>
      match scan_for .Program inp.updateEntries with
      | none => .error .updateProgramNotFound
      | some _update_nca =>
        match scan_for .Control inp.updateEntries with
        | none => .error .updateControlNotFound
        | some _control_nca =>
          let warns := keyWarns ++ (if inp.extractStatusOk then [] else [.extractStatus])
          match base_nca.title_id with
          | none => .error .missingTitleId
          | some tid =>
            let title_id := patch_title_id tid
            if !inp.packStatusOk then .error .packNcaFailed
            else
              match inp.packedEntries.find? Entry.isNcaExt with
              | none => .error .patchedNcaNotFound
              | some pe =>
                match pe.toNca with
                | none => .error .classifyFailed
                | some _patched_nca =>
                  if !inp.metaStatusOk then .error .metaNcaFailed
                  else if !inp.nspStatusOk then .error .nspPackFailed
                  else
                    let moved := move_file (title_id ++ ".nsp")
                      (title_id ++ "[yanu-patched].nsp") [title_id ++ ".nsp"] []
                    .ok { titleKeys := titleKeys,
                          cmdTitleIds := [title_id, title_id, title_id],
                          cacheFiles := moved.1,
                          outFiles := moved.2,
                          warnings := warns }

/-- The selection rule the spec asserts for the update scan: first
kind-match in walk order, independent of size. -/
def scan_first_in_walk (k : NcaType) (es : List Entry) : Option Nca :=
  (es.find? (isKind k)).bind Entry.toNca

/-- Modelled from the spec: PROGRAMID_LEN of the vfs module (not under
src/) is the fixed identifier width, the same width patch.rs calls
TITLEID_SZ. -/
def PROGRAMID_LEN : Nat := 16

/-- The program-id processing of pack_fs_data (pack.rs): truncate to the
identifier width, with no lowercasing. -/
def pack_program_id (pid : String) : String := truncate pid PROGRAMID_LEN

/-- outdir listing produced by a run (none when the run aborts, so no
archive is written). -/
def runOutFiles (inp : PatchInput) : Option (List String) :=
  match patch_nsp_with_update inp with
  | .ok r => some r.outFiles
  | .error _ => none

/-- Example base-extraction walk: one Program NCA with an over-long,
mixed-case title id. -/
def egBaseProg : Entry :=
  { path := "base/prog.nca", size := 100, ext := some "nca",
    parse := some (NcaType.Program, some "0100ABCDEF123456XYZ") }

/-- Example update-extraction walk entries: two Program NCAs of distinct
sizes, with the smaller one first in walk order, and one Control NCA. -/
def egUpdProgSmall : Entry :=
  { path := "upd/prog-small.nca", size := 1, ext := some "nca",
    parse := some (NcaType.Program, none) }

def egUpdProgBig : Entry :=
  { path := "upd/prog-big.nca", size := 2, ext := some "nca",
    parse := some (NcaType.Program, none) }

def egUpdCtrl : Entry :=
  { path := "upd/ctrl.nca", size := 3, ext := some "nca",
    parse := some (NcaType.Control, none) }

/-- Example nca-dir walk after the pack stage. -/
def egPacked : Entry :=
  { path := "nca/patched.nca", size := 50, ext := some "nca",
    parse := some (NcaType.Program, none) }

/-- A fully successful example run: pre-existing key-store content, both
derivations failed, every child process exits zero. -/
def egInput : PatchInput :=
  { priorTitleKeys := some "0011223344556677=8899aabbccddeeff",
    titleKeysPermDenied := false,
    extractBaseOk := true, extractUpdateOk := true,
    baseKey := none, updateKey := none,
    baseEntries := [egBaseProg],
    updateEntries := [egUpdProgSmall, egUpdProgBig, egUpdCtrl],
    extractStatusOk := true, packStatusOk := true,
    packedEntries := [egPacked],
    metaStatusOk := true, nspStatusOk := true }

/-- egInput with the four child-process exit statuses chosen freely. -/
def egInputWith (ext pack meta nsp : Bool) : PatchInput :=
  { egInput with extractStatusOk := ext, packStatusOk := pack,
                 metaStatusOk := meta, nspStatusOk := nsp }

/-- What the example run produces. -/
def egResult : PatchResult :=
  { titleKeys := some "\n",
    cmdTitleIds := ["0100abcdef123456", "0100abcdef123456", "0100abcdef123456"],
    cacheFiles := [],
    outFiles := ["0100abcdef123456[yanu-patched].nsp"],
    warnings := [PatchWarn.baseKeyDerive, PatchWarn.updateKeyDerive] }

/-- The Nca values the example scans produce. -/
def egBaseNca : Nca :=
  { path := "base/prog.nca", content_type := NcaType.Program,
    title_id := some "0100ABCDEF123456XYZ" }

def egUpdNca : Nca :=
  { path := "upd/prog-big.nca", content_type := NcaType.Program, title_id := none }

def egCtrlNca : Nca :=
  { path := "upd/ctrl.nca", content_type := NcaType.Control, title_id := none }

def egPackedNca : Nca :=
  { path := "nca/patched.nca", content_type := NcaType.Program, title_id := none }

/-- Warnings of a run, empty when the run aborts. -/
def runWarnings (inp : PatchInput) : List PatchWarn :=
  match patch_nsp_with_update inp with
  | .ok r => r.warnings
  | .error _ => []

/-! ## Backend store and build (src/hac/backend.rs) -/

/-- Build failure stages of the from-source path, in source order. -/
inductive BuildError
  | cloneFailed
  | renameFailed
  | nprocProbeFailed
  | makeFailed
  | moveFailed
deriving DecidableEq

/-- make_hacpack of backend.rs: clone the upstream repo (non-zero exit
aborts), rename config.mk.template to config.mk (an io error aborts), run
make with the -j argument NPROC / 2 where NPROC is the parsed nproc
output as u8 (a probe failure propagates and aborts; the division is
integer division with no minimum), and move the binary into the cache
dir.  The successful result records the -j parallelism passed to make and
the cached path. -/
def make_hacpack (nproc : Option Nat) (cloneOk renameOk makeOk moveOk : Bool) :
    Except BuildError (Nat × String) :=
  if !cloneOk then .error .cloneFailed
  else if !renameOk then .error .renameFailed
  else
    match nproc with
    | none => .error .nprocProbeFailed
    | some n =>
      if !makeOk then .error .makeFailed
      else if !moveOk then .error .moveFailed
      else .ok (n / 2, "cachedir/hacpack")

/-- The backend kinds available on x86_64 linux (backend.rs). -/
inductive BackendKind
  | Hacpack
  | Hactool
  | Hactoolnet
  | Hac2l
deriving DecidableEq

/-- to_filename of backend.rs on unix: the lower-cased Debug name. -/
def BackendKind.to_filename : BackendKind → String
  | .Hacpack => "hacpack"
  | .Hactool => "hactool"
  | .Hactoolnet => "hactoolnet"
  | .Hac2l => "hac2l"

/-- Modelled from the spec: the persistent cache directory (the cache
module is not under src/): a listing of stored filenames; is_cached tests
membership, path maps a filename to its cache-dir path, store adds the
filename and returns that path. -/
structure CacheState where
  files : List String
deriving DecidableEq

def cachePath (filename : String) : String := "cachedir/" ++ filename

def CacheState.is_cached (st : CacheState) (filename : String) : Bool :=
  st.files.contains filename

def CacheState.store (st : CacheState) (filename : String) :
    CacheState × String :=
  ({ files := filename :: st.files }, cachePath filename)

/-- A resolved backend: kind plus executable path (struct Backend of
backend.rs). -/
structure Backend where
  kind : BackendKind
  path : String
deriving DecidableEq

/-- Backend::new of backend.rs on x86_64 linux: a cache hit returns the
cached path at once, with no build, no extraction and no content
validation; otherwise hacpack, hactool and hac2l are built from source
and hactoolnet is written from embedded bytes (acquireOk abstracts the
success of that work), then stored under the canonical filename.  The
Bool of the result records whether a build or extraction ran. -/
def Backend.new (kind : BackendKind) (acquireOk : Bool) (st : CacheState) :
    Except BuildError (CacheState × Backend × Bool) :=
  let filename := kind.to_filename
  if st.is_cached filename then
    .ok (st, { kind := kind, path := cachePath filename }, false)
  else if acquireOk then
    let stored := st.store filename
    .ok (stored.1, { kind := kind, path := stored.2 }, true)
  else .error .makeFailed

theorem hexDigit_lower {n : Nat} (h : n < 16) :
    (hexDigit n).isDigit = true ∨ ('a' ≤ hexDigit n ∧ hexDigit n ≤ 'f') := by
  interval_cases n <;> decide

theorem hexEncode_chars_lower (bs : List Nat) :
    ∀ c ∈ (hexEncode bs).data, c.isDigit = true ∨ ('a' ≤ c ∧ c ≤ 'f') := by
  induction bs with
  | nil => intro c hc; simp [hexEncode] at hc
  | cons b bs ih =>
    intro c hc
    have hm : c ∈ hexByte b ++ (hexEncode bs).data := hc
    rcases List.mem_append.mp hm with h1 | h2
    · have hb : c = hexDigit (b / 16 % 16) ∨ c = hexDigit (b % 16) := by
        simpa [hexByte] using h1
      rcases hb with rfl | rfl
      · exact hexDigit_lower (Nat.mod_lt _ (by omega))
      · exact hexDigit_lower (Nat.mod_lt _ (by omega))
    · exact ih c h2

/-- C3: for every ticket file of length at least 0x2B0 bytes, get_title_key
returns a TitleKey whose title id equals the 16 bytes at offset 0x2a0 and
whose key equals the 16 bytes at offset 0x180; every shorter file fails with
an io error; and a TitleKey displays as lowercase-hex(title_id), an equals
sign, lowercase-hex(key). -/
theorem C3_title_key_extraction (file : List Nat) :
    (0x2b0 ≤ file.length →
      get_title_key file =
        .ok { title_id := (file.drop 0x2a0).take 16, key := (file.drop 0x180).take 16 }) ∧
    (file.length < 0x2b0 → get_title_key file = .error .ioError) ∧
    (∀ tk : TitleKey, tk.display = hexEncode tk.title_id ++ "=" ++ hexEncode tk.key ∧
      (∀ c ∈ (hexEncode tk.title_id).data, c.isDigit = true ∨ ('a' ≤ c ∧ c ≤ 'f')) ∧
      (∀ c ∈ (hexEncode tk.key).data, c.isDigit = true ∨ ('a' ≤ c ∧ c ≤ 'f'))) := by
  refine ⟨?_, ?_, ?_⟩
  · intro h
    have h1 : read_exact file ticketTitleIdOff 16 = .ok ((file.drop 0x2a0).take 16) := by
      simp only [read_exact, ticketTitleIdOff]
      rw [if_pos (by omega)]
    have h2 : read_exact file ticketTitleKeyOff 16 = .ok ((file.drop 0x180).take 16) := by
      simp only [read_exact, ticketTitleKeyOff]
      rw [if_pos (by omega)]
    simp [get_title_key, h1, h2, Bind.bind, Except.bind, Pure.pure, Except.pure]
  · intro h
    have h1 : read_exact file ticketTitleIdOff 16 = .error .ioError := by
      simp only [read_exact, ticketTitleIdOff]
      rw [if_neg (by omega)]
    simp [get_title_key, h1, Bind.bind, Except.bind]
  · intro tk
    exact ⟨rfl, hexEncode_chars_lower _, hexEncode_chars_lower _⟩

/-- Witness for C3 at concrete ticket files: a 0x2b0-byte file succeeds, a
0x100-byte file fails. -/
theorem C3_title_key_extraction_witness :
    get_title_key (List.replicate 0x2b0 7) =
      .ok { title_id := ((List.replicate 0x2b0 7).drop 0x2a0).take 16,
            key := ((List.replicate 0x2b0 7).drop 0x180).take 16 } ∧
    get_title_key (List.replicate 0x100 7) = .error .ioError :=
  ⟨(C3_title_key_extraction _).1 (by rw [List.length_replicate]),
   (C3_title_key_extraction _).2.1 (by rw [List.length_replicate]; omega)⟩

theorem mem_insertDesc {e a : Entry} {l : List Entry} :
    a ∈ insertDesc e l ↔ a = e ∨ a ∈ l := by
  induction l with
  | nil => simp [insertDesc]
  | cons x xs ih =>
    by_cases hc : e.size < x.size
    · simp only [insertDesc, if_pos hc, List.mem_cons, ih]
      tauto
    · simp only [insertDesc, if_neg hc, List.mem_cons]

theorem sortedDesc_insertDesc {l : List Entry} (e : Entry) (h : SortedDesc l) :
    SortedDesc (insertDesc e l) := by
  induction l with
  | nil => exact List.pairwise_singleton _ _
  | cons x xs ih =>
    rcases List.pairwise_cons.mp h with ⟨hx, hxs⟩
    by_cases hc : e.size < x.size
    · simp only [insertDesc, if_pos hc]
      refine List.pairwise_cons.mpr ⟨?_, ih hxs⟩
      intro a ha
      rcases mem_insertDesc.mp ha with rfl | hmem
      · omega
      · exact hx a hmem
    · simp only [insertDesc, if_neg hc]
      refine List.pairwise_cons.mpr ⟨?_, h⟩
      intro a ha
      rcases List.mem_cons.mp ha with rfl | hmem
      · omega
      · have := hx a hmem
        omega

theorem sortedDesc_sortDesc (es : List Entry) : SortedDesc (sortDesc es) := by
  induction es with
  | nil => exact List.Pairwise.nil
  | cons e es ih => exact sortedDesc_insertDesc e ih

theorem mem_sortDesc {a : Entry} {es : List Entry} :
    a ∈ sortDesc es ↔ a ∈ es := by
  induction es with
  | nil => simp [sortDesc]
  | cons e es ih =>
    simp only [sortDesc, mem_insertDesc, List.mem_cons, ih]

/-- In a size-descending list, find? behaves like one bestOf step when an
element is inserted. -/
theorem find?_insertDesc (p : Entry → Bool) (e : Entry) {l : List Entry}
    (hs : SortedDesc l) :
    (insertDesc e l).find? p =
      match l.find? p with
      | none => if p e then some e else none
      | some b => if p e then (if e.size < b.size then some b else some e) else some b := by
  induction l with
  | nil =>
    cases hp : p e <;> simp [insertDesc, List.find?, hp]
  | cons x xs ih =>
    rcases List.pairwise_cons.mp hs with ⟨hx, hxs⟩
    by_cases hc : e.size < x.size
    · simp only [insertDesc, if_pos hc]
      cases hpx : p x with
      | true =>
        cases hpe : p e <;>
          simp [List.find?_cons, hpx, hpe, hc]
      | false =>
        simp only [List.find?_cons, hpx]
        exact ih hxs
    · simp only [insertDesc, if_neg hc]
      cases hpe : p e with
      | true =>
        have hl : (e :: x :: xs).find? p = some e := by
          simp [List.find?_cons, hpe]
        rw [hl]
        cases hf : (x :: xs).find? p with
        | none => simp
        | some b =>
          have hb : b ∈ x :: xs := List.mem_of_find?_eq_some hf
          have hble : b.size ≤ x.size := by
            rcases List.mem_cons.mp hb with rfl | hmem
            · exact le_refl _
            · exact hx b hmem
          have hnlt : ¬ e.size < b.size := by omega
          simp [hnlt]
      | false =>
        have hl : (e :: x :: xs).find? p = (x :: xs).find? p := by
          simp [List.find?_cons, hpe]
        rw [hl]
        cases hf : (x :: xs).find? p <;> simp

/-- The first match of the size-sorted walk is the bestOf selection over
the original walk order. -/
theorem find?_sortDesc (p : Entry → Bool) (es : List Entry) :
    (sortDesc es).find? p = bestOf p es := by
  induction es with
  | nil => rfl
  | cons e es ih =>
    simp only [sortDesc, bestOf]
    rw [find?_insertDesc p e (sortedDesc_sortDesc es), ih]

theorem bestOf_eq_none {p : Entry → Bool} :
    ∀ {es : List Entry}, bestOf p es = none → ∀ e ∈ es, p e = false := by
  intro es
  induction es with
  | nil => intro _ a ha; simp at ha
  | cons e es ih =>
    intro h a ha
    simp only [bestOf] at h
    cases hb : bestOf p es with
    | none =>
      rw [hb] at h
      cases hpe : p e with
      | false =>
        rcases List.mem_cons.mp ha with rfl | hmem
        · exact hpe
        · exact ih hb a hmem
      | true => rw [hpe] at h; simp at h
    | some b =>
      rw [hb] at h
      cases hpe : p e with
      | false => rw [hpe] at h; simp at h
      | true =>
        rw [hpe] at h
        simp only [if_true] at h
        split at h <;> simp at h

theorem bestOf_spec {p : Entry → Bool} :
    ∀ {es : List Entry} {b : Entry}, bestOf p es = some b →
      ∃ l₁ l₂, es = l₁ ++ b :: l₂ ∧ p b = true ∧
        (∀ e ∈ es, p e = true → e.size ≤ b.size) ∧
        (∀ e ∈ l₁, p e = true → e.size < b.size) := by
  intro es
  induction es with
  | nil => intro b h; simp [bestOf] at h
  | cons e es ih =>
    intro b h
    simp only [bestOf] at h
    cases hb : bestOf p es with
    | none =>
      rw [hb] at h
      cases hpe : p e with
      | false => rw [hpe] at h; simp at h
      | true =>
        rw [hpe] at h
        simp only [if_true, Option.some.injEq] at h
        subst h
        refine ⟨[], es, rfl, hpe, ?_, by simp⟩
        intro a ha hpa
        rcases List.mem_cons.mp ha with rfl | hmem
        · exact le_refl _
        · rw [bestOf_eq_none hb a hmem] at hpa; cases hpa
    | some b' =>
      rw [hb] at h
      rcases ih hb with ⟨l₁, l₂, hsplit, hpb', hmax', hfirst'⟩
      cases hpe : p e with
      | false =>
        rw [hpe] at h
        simp only [Bool.false_eq_true, if_false, Option.some.injEq] at h
        subst h
        refine ⟨e :: l₁, l₂, by simp [hsplit], hpb', ?_, ?_⟩
        · intro a ha hpa
          rcases List.mem_cons.mp ha with rfl | hmem
          · rw [hpe] at hpa; cases hpa
          · exact hmax' a hmem hpa
        · intro a ha hpa
          rcases List.mem_cons.mp ha with rfl | hmem
          · rw [hpe] at hpa; cases hpa
          · exact hfirst' a hmem hpa
      | true =>
        rw [hpe] at h
        simp only [if_true] at h
        by_cases hlt : e.size < b'.size
        · rw [if_pos hlt] at h
          obtain rfl := Option.some.inj h
          refine ⟨e :: l₁, l₂, by simp [hsplit], hpb', ?_, ?_⟩
          · intro a ha hpa
            rcases List.mem_cons.mp ha with rfl | hmem
            · omega
            · exact hmax' a hmem hpa
          · intro a ha hpa
            rcases List.mem_cons.mp ha with rfl | hmem
            · exact hlt
            · exact hfirst' a hmem hpa
        · rw [if_neg hlt] at h
          obtain rfl := Option.some.inj h
          refine ⟨[], es, rfl, hpe, ?_, by simp⟩
          intro a ha hpa
          rcases List.mem_cons.mp ha with rfl | hmem
          · exact le_refl _
          · have := hmax' a hmem hpa
            omega

theorem toNca_of_isKind {k : NcaType} {e : Entry} (h : isKind k e = true) :
    ∃ n, Entry.toNca e = some n ∧ n.content_type = k ∧ n.path = e.path := by
  unfold isKind at h
  cases hp : e.parse with
  | none => rw [hp] at h; simp at h
  | some pr =>
    rw [hp] at h
    simp only [Bool.and_eq_true, beq_iff_eq] at h
    refine ⟨{ path := e.path, content_type := pr.1, title_id := pr.2 }, ?_, h.2, rfl⟩
    simp [Entry.toNca, hp]

/-- Everything a successful patch run guarantees, extracted once: the base
scan succeeded, its Nca carried a title id, and every result field is
determined by that title id and the inputs. -/
theorem patch_ok_shape {inp : PatchInput} {r : PatchResult}
    (h : patch_nsp_with_update inp = .ok r) :
    ∃ n tid, scan_for NcaType.Program inp.baseEntries = some n ∧
      n.title_id = some tid ∧
      r.titleKeys =
        store_title_keys inp.priorTitleKeys (keyLine inp.baseKey) (keyLine inp.updateKey) ∧
      r.cmdTitleIds = [patch_title_id tid, patch_title_id tid, patch_title_id tid] ∧
      r.cacheFiles = [] ∧
      r.outFiles = [patch_title_id tid ++ "[yanu-patched].nsp"] ∧
      r.warnings =
        ((if inp.baseKey.isNone then [PatchWarn.baseKeyDerive] else []) ++
          (if inp.updateKey.isNone then [PatchWarn.updateKeyDerive] else [])) ++
          (if inp.extractStatusOk then [] else [PatchWarn.extractStatus]) := by
  unfold patch_nsp_with_update at h
  cases hpd : inp.titleKeysPermDenied with
  | true => rw [hpd] at h; simp at h
  | false =>
  rw [hpd] at h
  simp only [Bool.false_eq_true, if_false] at h
  cases hxb : inp.extractBaseOk with
  | false => rw [hxb] at h; simp at h
  | true =>
  rw [hxb] at h
  simp only [Bool.not_true, Bool.false_eq_true, if_false] at h
  cases hxu : inp.extractUpdateOk with
  | false => rw [hxu] at h; simp at h
  | true =>
  rw [hxu] at h
  simp only [Bool.not_true, Bool.false_eq_true, if_false] at h
  cases hsb : scan_for NcaType.Program inp.baseEntries with
  | none => rw [hsb] at h; simp at h
  | some base_nca =>
  rw [hsb] at h
  cases hsu : scan_for NcaType.Program inp.updateEntries with
  | none => rw [hsu] at h; simp at h
  | some update_nca =>
  rw [hsu] at h
  cases hsc : scan_for NcaType.Control inp.updateEntries with
  | none => rw [hsc] at h; simp at h
  | some control_nca =>
  rw [hsc] at h
  dsimp only at h
  cases htid : base_nca.title_id with
  | none => rw [htid] at h; simp at h
  | some tid =>
  rw [htid] at h
  dsimp only at h
  cases hpk : inp.packStatusOk with
  | false => rw [hpk] at h; simp at h
  | true =>
  rw [hpk] at h
  simp only [Bool.not_true, Bool.false_eq_true, if_false] at h
  cases hfe : inp.packedEntries.find? Entry.isNcaExt with
  | none => rw [hfe] at h; simp at h
  | some pe =>
  rw [hfe] at h
  dsimp only at h
  cases hnca : pe.toNca with
  | none => rw [hnca] at h; simp at h
  | some patched =>
  rw [hnca] at h
  dsimp only at h
  cases hmt : inp.metaStatusOk with
  | false => rw [hmt] at h; simp at h
  | true =>
  rw [hmt] at h
  simp only [Bool.not_true, Bool.false_eq_true, if_false] at h
  cases hns : inp.nspStatusOk with
  | false => rw [hns] at h; simp at h
  | true =>
  rw [hns] at h
  simp only [Bool.not_true, Bool.false_eq_true, if_false, Except.ok.injEq] at h
  refine ⟨base_nca, tid, rfl, htid, ?_⟩
  rw [← h]
  refine ⟨rfl, rfl, ?_, rfl, rfl⟩
  simp [move_file]

/-- Full evaluation of the pipeline once every stage before the
status-gated child processes is known to succeed. -/
theorem patch_eval {inp : PatchInput} {n un cn : Nca} {tid : String}
    {pe : Entry} {pn : Nca}
    (h1 : inp.titleKeysPermDenied = false) (h2 : inp.extractBaseOk = true)
    (h3 : inp.extractUpdateOk = true)
    (h4 : scan_for NcaType.Program inp.baseEntries = some n)
    (h5 : n.title_id = some tid)
    (h6 : scan_for NcaType.Program inp.updateEntries = some un)
    (h7 : scan_for NcaType.Control inp.updateEntries = some cn)
    (h8 : inp.packedEntries.find? Entry.isNcaExt = some pe)
    (h9 : pe.toNca = some pn) :
    patch_nsp_with_update inp =
      if !inp.packStatusOk then .error .packNcaFailed
      else if !inp.metaStatusOk then .error .metaNcaFailed
      else if !inp.nspStatusOk then .error .nspPackFailed
      else .ok {
        titleKeys :=
          store_title_keys inp.priorTitleKeys (keyLine inp.baseKey) (keyLine inp.updateKey),
        cmdTitleIds := [patch_title_id tid, patch_title_id tid, patch_title_id tid],
        cacheFiles := [],
        outFiles := [patch_title_id tid ++ "[yanu-patched].nsp"],
        warnings :=
          ((if inp.baseKey.isNone then [PatchWarn.baseKeyDerive] else []) ++
            (if inp.updateKey.isNone then [PatchWarn.updateKeyDerive] else [])) ++
            (if inp.extractStatusOk then [] else [PatchWarn.extractStatus]) } := by
  unfold patch_nsp_with_update
  rw [h1]
  simp only [Bool.false_eq_true, if_false]
  rw [h2]
  simp only [Bool.not_true, Bool.false_eq_true, if_false]
  rw [h3]
  simp only [Bool.not_true, Bool.false_eq_true, if_false]
  rw [h4]
  dsimp only
  rw [h6]
  dsimp only
  rw [h7]
  dsimp only
  rw [h5]
  dsimp only
  cases hpk : inp.packStatusOk with
  | false => simp
  | true =>
  simp only [Bool.not_true, Bool.false_eq_true, if_false]
  rw [h8]
  dsimp only
  rw [h9]
  dsimp only
  cases hmt : inp.metaStatusOk with
  | false => simp
  | true =>
  simp only [Bool.not_true, Bool.false_eq_true, if_false]
  cases hns : inp.nspStatusOk with
  | false => simp
  | true =>
  simp only [Bool.not_true, Bool.false_eq_true, if_false]
  simp [move_file]

/-- A successful scan selects a kind-matching entry of maximal size, the
earliest such entry in walk order. -/
theorem scan_for_spec (k : NcaType) (es : List Entry) {nca : Nca}
    (h : scan_for k es = some nca) :
    ∃ l₁ e l₂, es = l₁ ++ e :: l₂ ∧ isKind k e = true ∧ Entry.toNca e = some nca ∧
      (∀ x ∈ es, isKind k x = true → x.size ≤ e.size) ∧
      (∀ x ∈ l₁, isKind k x = true → x.size < e.size) := by
  unfold scan_for at h
  rw [find?_sortDesc] at h
  cases hb : bestOf (isKind k) es with
  | none => rw [hb] at h; simp at h
  | some e =>
    rw [hb] at h
    simp only [Option.some_bind] at h
    rcases bestOf_spec hb with ⟨l₁, l₂, hsplit, hpe, hmax, hfirst⟩
    exact ⟨l₁, e, l₂, hsplit, hpe, h, hmax, hfirst⟩

/-- A failed scan means no entry of the required kind exists at all. -/
theorem scan_for_none (k : NcaType) (es : List Entry)
    (h : scan_for k es = none) : ∀ x ∈ es, isKind k x = false := by
  unfold scan_for at h
  rw [find?_sortDesc] at h
  cases hb : bestOf (isKind k) es with
  | none => exact bestOf_eq_none hb
  | some e =>
    rw [hb] at h
    simp only [Option.some_bind] at h
    rcases bestOf_spec hb with ⟨_, _, _, hpe, _, _⟩
    rcases toNca_of_isKind hpe with ⟨nn, hnn, _, _⟩
    rw [hnn] at h
    cases h

/-- C4: the base scan returns the required-kind entry of maximum size
(selecting among nca-extension entries), ties resolving to the first such
entry in walk order; an empty scan is NotFound, which aborts the pipeline
stage. -/
theorem C4_base_scan_largest (es : List Entry) :
    (∀ nca, scan_for NcaType.Program es = some nca →
      ∃ l₁ e l₂, es = l₁ ++ e :: l₂ ∧ isKind NcaType.Program e = true ∧
        Entry.toNca e = some nca ∧
        (∀ x ∈ es, isKind NcaType.Program x = true → x.size ≤ e.size) ∧
        (∀ x ∈ l₁, isKind NcaType.Program x = true → x.size < e.size)) ∧
    (scan_for NcaType.Program es = none → ∀ x ∈ es, isKind NcaType.Program x = false) ∧
    (∀ inp : PatchInput, inp.baseEntries = es → inp.titleKeysPermDenied = false →
      inp.extractBaseOk = true → inp.extractUpdateOk = true →
      scan_for NcaType.Program es = none →
      patch_nsp_with_update inp = .error .baseProgramNotFound) := by
  refine ⟨fun nca h => scan_for_spec _ _ h, scan_for_none _ _, ?_⟩
  intro inp he h1 h2 h3 h4
  unfold patch_nsp_with_update
  rw [h1]
  simp only [Bool.false_eq_true, if_false]
  rw [h2]
  simp only [Bool.not_true, Bool.false_eq_true, if_false]
  rw [h3]
  simp only [Bool.not_true, Bool.false_eq_true, if_false]
  rw [he, h4]

/-- C5 amended: the update scan walks the same size-sorted order as the
base scan, so each required kind independently selects its largest entry
(ties to walk order), not the walk-order-first match; absence of the
Program or the Control entry aborts the pipeline before any output is
assembled. -/
theorem C5_update_scan_largest (es : List Entry) :
    (∀ k nca, scan_for k es = some nca →
      ∃ l₁ e l₂, es = l₁ ++ e :: l₂ ∧ isKind k e = true ∧
        Entry.toNca e = some nca ∧
        (∀ x ∈ es, isKind k x = true → x.size ≤ e.size) ∧
        (∀ x ∈ l₁, isKind k x = true → x.size < e.size)) ∧
    (∀ inp : PatchInput, ∀ n : Nca, inp.updateEntries = es →
      inp.titleKeysPermDenied = false → inp.extractBaseOk = true →
      inp.extractUpdateOk = true →
      scan_for NcaType.Program inp.baseEntries = some n →
      ((scan_for NcaType.Program es = none →
        patch_nsp_with_update inp = .error .updateProgramNotFound) ∧
       (∀ un, scan_for NcaType.Program es = some un →
        scan_for NcaType.Control es = none →
        patch_nsp_with_update inp = .error .updateControlNotFound))) := by
  refine ⟨fun k nca h => scan_for_spec _ _ h, ?_⟩
  intro inp n he h1 h2 h3 hb
  constructor
  · intro h4
    unfold patch_nsp_with_update
    rw [h1]
    simp only [Bool.false_eq_true, if_false]
    rw [h2]
    simp only [Bool.not_true, Bool.false_eq_true, if_false]
    rw [h3]
    simp only [Bool.not_true, Bool.false_eq_true, if_false]
    rw [hb]
    dsimp only
    rw [he, h4]
  · intro un h4 h5
    unfold patch_nsp_with_update
    rw [h1]
    simp only [Bool.false_eq_true, if_false]
    rw [h2]
    simp only [Bool.not_true, Bool.false_eq_true, if_false]
    rw [h3]
    simp only [Bool.not_true, Bool.false_eq_true, if_false]
    rw [hb]
    dsimp only
    rw [he, h4]
    dsimp only
    rw [h5]

/-- C6: once the pipeline reaches the child-process stages, a non-zero
exit of the romfs/exefs extraction only records a warning and the run
still succeeds, while a non-zero exit of the NCA pack, Meta generation or
NSP assembly stage aborts with the corresponding fatal error. -/
theorem C6_exit_status_policy (inp : PatchInput) (n un cn : Nca)
    (tid : String) (pe : Entry) (pn : Nca)
    (h1 : inp.titleKeysPermDenied = false) (h2 : inp.extractBaseOk = true)
    (h3 : inp.extractUpdateOk = true)
    (h4 : scan_for NcaType.Program inp.baseEntries = some n)
    (h5 : n.title_id = some tid)
    (h6 : scan_for NcaType.Program inp.updateEntries = some un)
    (h7 : scan_for NcaType.Control inp.updateEntries = some cn)
    (h8 : inp.packedEntries.find? Entry.isNcaExt = some pe)
    (h9 : pe.toNca = some pn) :
    (inp.extractStatusOk = false → inp.packStatusOk = true →
      inp.metaStatusOk = true → inp.nspStatusOk = true →
      ∃ r, patch_nsp_with_update inp = .ok r ∧
        PatchWarn.extractStatus ∈ r.warnings) ∧
    (inp.packStatusOk = false →
      patch_nsp_with_update inp = .error .packNcaFailed) ∧
    (inp.packStatusOk = true → inp.metaStatusOk = false →
      patch_nsp_with_update inp = .error .metaNcaFailed) ∧
    (inp.packStatusOk = true → inp.metaStatusOk = true →
      inp.nspStatusOk = false →
      patch_nsp_with_update inp = .error .nspPackFailed) := by
  have he := patch_eval h1 h2 h3 h4 h5 h6 h7 h8 h9
  refine ⟨?_, ?_, ?_, ?_⟩
  · intro hx hp hm hn
    rw [he, hp, hm, hn]
    simp only [Bool.not_true, Bool.false_eq_true, if_false]
    refine ⟨_, rfl, ?_⟩
    rw [hx]
    simp
  · intro hp
    rw [he, hp]
    simp
  · intro hp hm
    rw [he, hp, hm]
    simp
  · intro hp hm hn
    rw [he, hp, hm, hn]
    simp

/-- C7: failed title-key derivation for the base archive, the update
archive, or both never aborts the run: whatever the derivation outcomes,
once the other stages succeed the pipeline completes, places an output
archive in outdir, and records the failures only as warnings. -/
theorem C7_key_derivation_nonfatal (inp : PatchInput) (n un cn : Nca)
    (tid : String) (pe : Entry) (pn : Nca)
    (h1 : inp.titleKeysPermDenied = false) (h2 : inp.extractBaseOk = true)
    (h3 : inp.extractUpdateOk = true)
    (h4 : scan_for NcaType.Program inp.baseEntries = some n)
    (h5 : n.title_id = some tid)
    (h6 : scan_for NcaType.Program inp.updateEntries = some un)
    (h7 : scan_for NcaType.Control inp.updateEntries = some cn)
    (h8 : inp.packedEntries.find? Entry.isNcaExt = some pe)
    (h9 : pe.toNca = some pn)
    (hp : inp.packStatusOk = true) (hm : inp.metaStatusOk = true)
    (hn : inp.nspStatusOk = true) :
    ∃ r, patch_nsp_with_update inp = .ok r ∧ r.outFiles ≠ [] ∧
      (inp.baseKey = none → PatchWarn.baseKeyDerive ∈ r.warnings) ∧
      (inp.updateKey = none → PatchWarn.updateKeyDerive ∈ r.warnings) := by
  have he := patch_eval h1 h2 h3 h4 h5 h6 h7 h8 h9
  rw [hp, hm, hn] at he
  simp only [Bool.not_true, Bool.false_eq_true, if_false] at he
  refine ⟨_, he, by simp, ?_, ?_⟩
  · intro hb
    rw [hb]
    simp
  · intro hu
    rw [hu]
    simp

theorem toNat_ofNat_small {n : Nat} (h : n < 55296) : (Char.ofNat n).toNat = n := by
  rw [Char.ofNat, dif_pos (Or.inl h)]
  rfl

/-- Char.toLower never leaves an ASCII uppercase letter. -/
theorem toLower_not_ascii_upper (c : Char) :
    ¬(65 ≤ (Char.toLower c).toNat ∧ (Char.toLower c).toNat ≤ 90) := by
  simp only [Char.toLower]
  split
  next h =>
    rw [toNat_ofNat_small (by omega)]
    omega
  next h =>
    omega

/-- C8 counterexample: the repackage-from-filesystem entry point embeds
the program id only truncated; an uppercase id stays uppercase, unlike
the lower-cased form the claim requires. -/
theorem C8_counterexample :
    pack_program_id "0100ABCDEF123456" = "0100ABCDEF123456" ∧
    to_lowercase (pack_program_id "0100ABCDEF123456") = "0100abcdef123456" ∧
    pack_program_id "0100ABCDEF123456" ≠ "0100abcdef123456" := by
  refine ⟨rfl, rfl, by decide⟩

/-- C8 amended: in the apply-update-patch flow every embedded title id is
the lower-cased, width-truncated form of the resolved id, in the three
packer command lines and the output filename alike; in the
repackage-from-filesystem flow the program id is truncated to the
identifier width but not lower-cased. -/
theorem C8_title_id_processing {inp : PatchInput} {r : PatchResult}
    (h : patch_nsp_with_update inp = .ok r) {n : Nca} {tid : String}
    (hscan : scan_for NcaType.Program inp.baseEntries = some n)
    (htid : n.title_id = some tid) :
    r.cmdTitleIds = [patch_title_id tid, patch_title_id tid, patch_title_id tid] ∧
    r.outFiles = [patch_title_id tid ++ "[yanu-patched].nsp"] ∧
    (∀ s : String, patch_title_id s = truncate (to_lowercase s) TITLEID_SZ ∧
      (patch_title_id s).length ≤ TITLEID_SZ ∧
      ∀ c ∈ (patch_title_id s).data, ¬(65 ≤ c.toNat ∧ c.toNat ≤ 90)) ∧
    (∀ s : String, pack_program_id s = truncate s PROGRAMID_LEN ∧
      (pack_program_id s).length ≤ PROGRAMID_LEN) := by
  obtain ⟨n', tid', hs', ht', hkeys, hcmd, hcache, hout, hwarn⟩ := patch_ok_shape h
  rw [hscan] at hs'
  obtain rfl := Option.some.inj hs'
  rw [htid] at ht'
  obtain rfl := Option.some.inj ht'
  refine ⟨hcmd, hout, ?_, ?_⟩
  · intro s
    refine ⟨rfl, ?_, ?_⟩
    · show ((to_lowercase s).data.take TITLEID_SZ).length ≤ TITLEID_SZ
      rw [List.length_take]
      exact Nat.min_le_left _ _
    · intro c hc
      have hc2 : c ∈ (to_lowercase s).data :=
        List.mem_of_mem_take hc
      have : c ∈ s.data.map Char.toLower := hc2
      rcases List.mem_map.mp this with ⟨d, _, rfl⟩
      exact toLower_not_ascii_upper d
  · intro s
    refine ⟨rfl, ?_⟩
    show (s.data.take PROGRAMID_LEN).length ≤ PROGRAMID_LEN
    rw [List.length_take]
    exact Nat.min_le_left _ _

theorem egRun : patch_nsp_with_update egInput = .ok egResult := rfl

/-- C1 counterexample: a successful run whose resolved title id is
0100abcdef123456 names its output 0100abcdef123456[yanu-patched].nsp, not
0100abcdef123456[patched].nsp as the claim states. -/
theorem C1_counterexample :
    runOutFiles egInput = some ["0100abcdef123456[yanu-patched].nsp"] ∧
    runOutFiles egInput ≠ some ["0100abcdef123456[patched].nsp"] :=
  ⟨rfl, by decide⟩

/-- C1 amended: the final archive is moved, not copied, into the
caller-specified output directory under the exact name
title_id[yanu-patched].nsp, with the title id lower-cased and truncated:
the outdir listing gains exactly that file and the intermediate archive
leaves the cache directory. -/
theorem C1_output_move_naming {inp : PatchInput} {r : PatchResult}
    (h : patch_nsp_with_update inp = .ok r) {n : Nca} {tid : String}
    (hscan : scan_for NcaType.Program inp.baseEntries = some n)
    (htid : n.title_id = some tid) :
    r.outFiles = [patch_title_id tid ++ "[yanu-patched].nsp"] ∧
    r.cacheFiles = [] := by
  obtain ⟨n', tid', hs', ht', hkeys, hcmd, hcache, hout, hwarn⟩ := patch_ok_shape h
  rw [hscan] at hs'
  obtain rfl := Option.some.inj hs'
  rw [htid] at ht'
  obtain rfl := Option.some.inj ht'
  exact ⟨hout, hcache⟩

/-- Witness for the amended C1 at the example run. -/
theorem C1_output_move_naming_witness :
    egResult.outFiles =
      [patch_title_id "0100ABCDEF123456XYZ" ++ "[yanu-patched].nsp"] ∧
    egResult.cacheFiles = [] :=
  @C1_output_move_naming egInput egResult egRun egBaseNca "0100ABCDEF123456XYZ" rfl rfl

/-- C2 counterexample: an entry present in the key-store file before the
run does not survive it; the file is removed and rewritten with only the
two fresh lines. -/
theorem C2_counterexample :
    store_title_keys (some "0011223344556677=8899aabbccddeeff") "a=b" "c=d" =
      some "a=b\nc=d" ∧
    store_title_keys (some "0011223344556677=8899aabbccddeeff") "a=b" "c=d" ≠
      some ("0011223344556677=8899aabbccddeeff" ++ "\n" ++ "a=b" ++ "\n" ++ "c=d") :=
  ⟨rfl, by decide⟩

/-- C2 amended: the run deletes any existing key-store file (only a
PermissionDenied failure of the removal aborts the run) and writes a
fresh file holding exactly the base line, a newline and the update line,
independent of the prior content. -/
theorem C2_keystore_replaced (prior : Option String) (b u : String) :
    store_title_keys prior b u = some (b ++ "\n" ++ u) ∧
    store_title_keys prior b u = store_title_keys none b u ∧
    (∀ (inp : PatchInput) (r : PatchResult), patch_nsp_with_update inp = .ok r →
      r.titleKeys = some (keyLine inp.baseKey ++ "\n" ++ keyLine inp.updateKey)) ∧
    (∀ inp : PatchInput, inp.titleKeysPermDenied = true →
      patch_nsp_with_update inp = .error .titleKeysPermissionDenied) := by
  refine ⟨rfl, rfl, ?_, ?_⟩
  · intro inp r h
    obtain ⟨n', tid', hs', ht', hkeys, _, _, _, _⟩ := patch_ok_shape h
    exact hkeys
  · intro inp h
    unfold patch_nsp_with_update
    rw [h]
    simp

/-- Witness for the amended C2 at the example run and a permission-denied
run. -/
theorem C2_keystore_replaced_witness :
    egResult.titleKeys = some (keyLine none ++ "\n" ++ keyLine none) ∧
    patch_nsp_with_update { egInput with titleKeysPermDenied := true } =
      .error .titleKeysPermissionDenied :=
  ⟨(C2_keystore_replaced none "" "").2.2.1 egInput egResult egRun,
   (C2_keystore_replaced none "" "").2.2.2 _ rfl⟩

/-- Witness for C4: an empty base extraction makes the scan fail and the
pipeline abort with the NotFound error. -/
theorem C4_base_scan_largest_witness :
    patch_nsp_with_update { egInput with baseEntries := [] } =
      .error .baseProgramNotFound :=
  (C4_base_scan_largest []).2.2 { egInput with baseEntries := [] } rfl rfl rfl rfl rfl

/-- C5 counterexample: with a small Program entry first in walk order and
a larger one later, the update scan selects the larger one, not the
walk-order-first match the claim describes. -/
theorem C5_counterexample :
    scan_for NcaType.Program [egUpdProgSmall, egUpdProgBig] = some egUpdNca ∧
    scan_first_in_walk NcaType.Program [egUpdProgSmall, egUpdProgBig] =
      some { path := "upd/prog-small.nca", content_type := NcaType.Program,
             title_id := none } ∧
    scan_for NcaType.Program [egUpdProgSmall, egUpdProgBig] ≠
      scan_first_in_walk NcaType.Program [egUpdProgSmall, egUpdProgBig] :=
  ⟨rfl, rfl, by decide⟩

/-- Witness for the amended C5: the largest update Program entry is
selected, and a missing Program or Control entry aborts the run. -/
theorem C5_update_scan_largest_witness :
    patch_nsp_with_update { egInput with updateEntries := [egUpdCtrl] } =
      .error .updateProgramNotFound ∧
    patch_nsp_with_update
        { egInput with updateEntries := [egUpdProgSmall, egUpdProgBig] } =
      .error .updateControlNotFound :=
  ⟨((C5_update_scan_largest [egUpdCtrl]).2
      { egInput with updateEntries := [egUpdCtrl] } egBaseNca
      rfl rfl rfl rfl rfl).1 rfl,
   ((C5_update_scan_largest [egUpdProgSmall, egUpdProgBig]).2
      { egInput with updateEntries := [egUpdProgSmall, egUpdProgBig] } egBaseNca
      rfl rfl rfl rfl rfl).2 egUpdNca rfl rfl⟩

/-- Witness for C6 at the example run with each status flipped in turn. -/
theorem C6_exit_status_policy_witness :
    PatchWarn.extractStatus ∈ runWarnings (egInputWith false true true true) ∧
    patch_nsp_with_update (egInputWith true false true true) =
      .error .packNcaFailed ∧
    patch_nsp_with_update (egInputWith true true false true) =
      .error .metaNcaFailed ∧
    patch_nsp_with_update (egInputWith true true true false) =
      .error .nspPackFailed := by
  refine ⟨?_, ?_, ?_, ?_⟩
  · obtain ⟨r, hr, hm⟩ :=
      (C6_exit_status_policy (egInputWith false true true true) egBaseNca egUpdNca
        egCtrlNca "0100ABCDEF123456XYZ" egPacked egPackedNca
        rfl rfl rfl rfl rfl rfl rfl rfl rfl).1 rfl rfl rfl rfl
    unfold runWarnings
    rw [hr]
    exact hm
  · exact (C6_exit_status_policy (egInputWith true false true true) egBaseNca egUpdNca
      egCtrlNca "0100ABCDEF123456XYZ" egPacked egPackedNca
      rfl rfl rfl rfl rfl rfl rfl rfl rfl).2.1 rfl
  · exact (C6_exit_status_policy (egInputWith true true false true) egBaseNca egUpdNca
      egCtrlNca "0100ABCDEF123456XYZ" egPacked egPackedNca
      rfl rfl rfl rfl rfl rfl rfl rfl rfl).2.2.1 rfl rfl
  · exact (C6_exit_status_policy (egInputWith true true true false) egBaseNca egUpdNca
      egCtrlNca "0100ABCDEF123456XYZ" egPacked egPackedNca
      rfl rfl rfl rfl rfl rfl rfl rfl rfl).2.2.2 rfl rfl rfl

/-- Witness for C7: the example run has both derivations failed and still
writes its output archive. -/
theorem C7_key_derivation_nonfatal_witness :
    runOutFiles egInput = some egResult.outFiles ∧
    egResult.outFiles ≠ [] ∧
    PatchWarn.baseKeyDerive ∈ egResult.warnings ∧
    PatchWarn.updateKeyDerive ∈ egResult.warnings := by
  obtain ⟨r, hr, hne, hw1, hw2⟩ :=
    C7_key_derivation_nonfatal egInput egBaseNca egUpdNca egCtrlNca
      "0100ABCDEF123456XYZ" egPacked egPackedNca
      rfl rfl rfl rfl rfl rfl rfl rfl rfl rfl rfl rfl
  rw [egRun] at hr
  obtain rfl := Except.ok.inj hr
  exact ⟨by unfold runOutFiles; rw [egRun], hne, hw1 rfl, hw2 rfl⟩

/-- Witness for the amended C8 at the example run. -/
theorem C8_title_id_processing_witness :
    egResult.cmdTitleIds = [patch_title_id "0100ABCDEF123456XYZ",
      patch_title_id "0100ABCDEF123456XYZ", patch_title_id "0100ABCDEF123456XYZ"] ∧
    pack_program_id "0100ABCDEF123456XYZ" = truncate "0100ABCDEF123456XYZ" PROGRAMID_LEN :=
  ⟨(@C8_title_id_processing egInput egResult egRun egBaseNca "0100ABCDEF123456XYZ"
      rfl rfl).1,
   ((@C8_title_id_processing egInput egResult egRun egBaseNca "0100ABCDEF123456XYZ"
      rfl rfl).2.2.2 "0100ABCDEF123456XYZ").1⟩

/-- C9 counterexample: with one detected CPU the build invokes make with
-j 0 (below the minimum of 1 the claim states), and a failed CPU-count
probe aborts the build instead of being clamped. -/
theorem C9_counterexample :
    make_hacpack (some 1) true true true true = .ok (0, "cachedir/hacpack") ∧
    ¬(1 ≤ 0) ∧
    make_hacpack none true true true true = .error .nprocProbeFailed :=
  ⟨rfl, by decide, rfl⟩

/-- C9 amended: the native build tool is invoked with parallelism exactly
NPROC / 2 (integer division, with no lower clamp, so 0 when one CPU is
detected), and a failure of the CPU-count probe is fatal to the build. -/
theorem C9_build_parallelism :
    (∀ (n : Nat) (c rn m mv : Bool) (jobs : Nat) (path : String),
      make_hacpack (some n) c rn m mv = .ok (jobs, path) → jobs = n / 2) ∧
    (∀ (m mv : Bool),
      make_hacpack none true true m mv = .error .nprocProbeFailed) := by
  constructor
  · intro n c rn m mv jobs path h
    unfold make_hacpack at h
    cases hc : c with
    | false => rw [hc] at h; simp at h
    | true =>
    rw [hc] at h
    simp only [Bool.not_true, Bool.false_eq_true, if_false] at h
    cases hrn : rn with
    | false => rw [hrn] at h; simp at h
    | true =>
    rw [hrn] at h
    simp only [Bool.not_true, Bool.false_eq_true, if_false] at h
    cases hm : m with
    | false => rw [hm] at h; simp at h
    | true =>
    rw [hm] at h
    simp only [Bool.not_true, Bool.false_eq_true, if_false] at h
    cases hmv : mv with
    | false => rw [hmv] at h; simp at h
    | true =>
    rw [hmv] at h
    simp only [Bool.not_true, Bool.false_eq_true, if_false, Except.ok.injEq,
      Prod.mk.injEq] at h
    exact h.1.symm
  · intro m mv
    rfl

/-- Witness for the amended C9. -/
theorem C9_build_parallelism_witness :
    (7 : Nat) = 15 / 2 ∧
    make_hacpack none true true true true = .error .nprocProbeFailed :=
  ⟨C9_build_parallelism.1 15 true true true true 7 "cachedir/hacpack" rfl,
   C9_build_parallelism.2 true true⟩

/-- C10: after any successful resolve, resolving the same kind again
performs no build or extraction (whatever the acquire outcome would be),
leaves the cache untouched, and returns the same path. -/
theorem C10_resolve_cached (kind : BackendKind) (st0 : CacheState)
    (a1 a2 : Bool) (st1 : CacheState) (b1 : Backend) (d1 : Bool)
    (h : Backend.new kind a1 st0 = .ok (st1, b1, d1)) :
    Backend.new kind a2 st1 =
      .ok (st1, { kind := kind, path := b1.path }, false) ∧
    b1.path = cachePath kind.to_filename := by
  unfold Backend.new at h ⊢
  dsimp only at h ⊢
  cases hc : st0.is_cached kind.to_filename with
  | true =>
    rw [hc] at h
    simp only [if_true, Except.ok.injEq, Prod.mk.injEq] at h
    obtain ⟨rfl, ⟨rfl, rfl⟩⟩ := h
    rw [hc]
    simp
  | false =>
    rw [hc] at h
    simp only [Bool.false_eq_true, if_false] at h
    cases ha : a1 with
    | false => rw [ha] at h; simp at h
    | true =>
    rw [ha] at h
    simp only [if_true, Except.ok.injEq, Prod.mk.injEq] at h
    obtain ⟨rfl, ⟨rfl, rfl⟩⟩ := h
    have hcached : (CacheState.store st0 kind.to_filename).1.is_cached
        kind.to_filename = true := by
      simp [CacheState.store, CacheState.is_cached]
    rw [hcached]
    simp [CacheState.store]

/-- Witness for C10 from an empty cache: the first resolve builds, the
second does not and returns the identical path. -/
theorem C10_resolve_cached_witness :
    Backend.new BackendKind.Hacpack false { files := ["hacpack"] } =
      .ok ({ files := ["hacpack"] },
        { kind := BackendKind.Hacpack, path := cachePath "hacpack" }, false) ∧
    cachePath "hacpack" = cachePath BackendKind.Hacpack.to_filename := by
  have h := C10_resolve_cached BackendKind.Hacpack { files := [] } true false
    { files := ["hacpack"] }
    { kind := BackendKind.Hacpack, path := cachePath "hacpack" } true rfl
  exact ⟨h.1, h.2⟩
